import Mathlib

/-!
# Metal shader library: compile / cache / bind / dispatch

A shallow embedding of `aten/src/ATen/native/mps/MetalShaderLibrary.h`.

* C++ types are described by `CppType`, the type traits used by the header are
  functions on it, and `detail.has_size_type` is the member detection idiom of
  the header.
* Driver handles (`MTLLibrary_t`, `MTLComputePipelineState_t`, ...) are natural
  numbers, `nullptr` is `0`.
* `uint64_t` arithmetic is arithmetic on `Nat` modulo `2 ^ 64`.
* Member functions that the header only declares are either parameters of the
  inline code that calls them, or are modelled from the specification; the
  latter say so in their documentation.
-/

namespace mps

/-! ## C++ types and the traits the header uses -/

/-- The integral types (`std::is_integral`). -/
inductive IntegralKind
  | bool | char | signedChar | unsignedChar | wchar_t | char16_t | char32_t
  | short | unsignedShort | int | unsignedInt
  | long | unsignedLong | longLong | unsignedLongLong
  deriving DecidableEq, Repr

/-- The floating point types (`std::is_floating_point`). -/
inductive FloatingKind
  | float | double | longDouble
  deriving DecidableEq, Repr

/-- What the header needs to know of a class or union type: the names of its
accessible member types, whether it is trivially copyable, and its size. -/
structure ClassInfo where
  memberTypes : List String
  trivially_copyable : Bool
  size : Nat
  deriving DecidableEq, Repr

/-- The primary type categories of C++ (cv-unqualified, as template argument
deduction of the `setArg` templates produces them). -/
inductive CppType
  | void
  | nullptr_t
  | integral (k : IntegralKind)
  | floating (k : FloatingKind)
  | enumeration (underlying : IntegralKind)
  | pointer (pointee : CppType)
  | memberPointer
  | reference (referred : CppType)
  | array (elem : CppType) (extent : Nat)
  | function
  | union_ (c : ClassInfo)
  | class_ (c : ClassInfo)
  deriving DecidableEq, Repr

/-- Size of an integral type, `sizeof`, for the LP64 data model of the Apple
platforms the header is compiled for. -/
def IntegralKind.sizeof : IntegralKind → Nat
  | .bool | .char | .signedChar | .unsignedChar => 1
  | .char16_t | .short | .unsignedShort => 2
  | .wchar_t | .char32_t | .int | .unsignedInt => 4
  | .long | .unsignedLong | .longLong | .unsignedLongLong => 8

/-- Size of a floating point type (arm64 Apple ABI: `long double` is `double`). -/
def FloatingKind.sizeof : FloatingKind → Nat
  | .float => 4
  | .double => 8
  | .longDouble => 8

/-- The `sizeof` operator. It is ill-formed for `void` and function types, which
get `0` here; no `setArg` overload accepts them. -/
def CppType.sizeof : CppType → Nat
  | .void => 0
  | .nullptr_t => 8
  | .integral k => k.sizeof
  | .floating k => k.sizeof
  | .enumeration u => u.sizeof
  | .pointer _ => 8
  | .memberPointer => 8
  | .reference r => r.sizeof
  | .array e n => n * e.sizeof
  | .function => 0
  | .union_ c => c.size
  | .class_ c => c.size

/-- The trait `std::is_integral_v<T>`. -/
def is_integral_v : CppType → Bool
  | .integral _ => true
  | _ => false

/-- The test `std::is_same_v<T, float>`. -/
def is_same_v_float : CppType → Bool
  | .floating .float => true
  | _ => false

/-- The trait `std::is_class_v<T>`: classes and structs, not unions. -/
def is_class_v : CppType → Bool
  | .class_ _ => true
  | _ => false

/-- The trait `std::is_trivially_copyable_v<T>`: scalar types, trivially
copyable classes and unions, and arrays of such. -/
def is_trivially_copyable_v : CppType → Bool
  | .void => false
  | .nullptr_t => true
  | .integral _ => true
  | .floating _ => true
  | .enumeration _ => true
  | .pointer _ => true
  | .memberPointer => true
  | .reference _ => false
  | .array e _ => is_trivially_copyable_v e
  | .function => false
  | .union_ c => c.trivially_copyable
  | .class_ c => c.trivially_copyable

/-- Whether `typename U::n` names a type: only class and union types have
member types. -/
def CppType.hasMemberType (U : CppType) (n : String) : Bool :=
  match U with
  | .class_ c => c.memberTypes.contains n
  | .union_ c => c.memberTypes.contains n
  | _ => false

namespace detail

/-- The two overloads of `has_size_type<T>::check`. -/
inductive CheckOverload
  | sizeTypePointer
  | ellipsis
  deriving DecidableEq, Repr

/-- Overload resolution of `check<T>(nullptr)`: the overload taking
`typename U::size_type*` takes part only when substitution succeeds, and is
then preferred to the one taking `...`. -/
def has_size_type.check (T : CppType) : CheckOverload :=
  if T.hasMemberType "size_type" then .sizeTypePointer else .ellipsis

/-- The member `has_size_type<T>::value`: `std::true_type` for the first
overload of `check`, `std::false_type` for the second. -/
def has_size_type.value (T : CppType) : Bool :=
  match has_size_type.check T with
  | .sizeTypePointer => true
  | .ellipsis => false

/-- The variable template `has_size_type_v<T>`. -/
def has_size_type_v (T : CppType) : Bool := has_size_type.value T

end detail

/-! ## Handles, pointers and values -/

/-- Driver handles (`MTLLibrary_t`, `MTLFunction_t`, `MTLComputePipelineState_t`,
`MTLComputeCommandEncoder_t`). -/
abbrev Handle := Nat

/-- The null handle. -/
def nullptr : Handle := 0

/-- Values of `uint64_t` and `size_t` are taken modulo this. -/
def UINT64_MOD : Nat := 2 ^ 64

/-- A `const void*` argument: the address of an object given by its bytes (what
`&val` yields for a by-value parameter), or any other address. -/
inductive VoidPtr
  | addressOf (object : List Nat)
  | address (a : Nat)
  deriving DecidableEq, Repr

/-- A value passed to the scalar overload: its type and object representation. -/
structure Value where
  type : CppType
  bytes : List Nat
  deriving DecidableEq, Repr

/-- A value passed to the container overload: its type, its `value_type`, and
what `data()` and `size()` return. -/
structure Container where
  type : CppType
  value_type : CppType
  data : VoidPtr
  size : Nat
  deriving DecidableEq, Repr

/-- Modelled from the spec: `at::TensorBase` is forward declared only. A tensor
exposes a device-memory handle and a byte size. -/
structure TensorBase where
  buffer : Handle
  nbytes : Nat
  deriving DecidableEq, Repr

namespace MetalKernelFunction

/-- Enabling condition of the template `setArg(unsigned idx, const T val)`. -/
def scalarEnabled (T : CppType) : Bool :=
  is_integral_v T || is_same_v_float T ||
    (is_class_v T && is_trivially_copyable_v T && !detail.has_size_type_v T)

/-- Enabling condition of the template
`setArg(unsigned idx, const Container& values)`. -/
def containerEnabled (C : CppType) : Bool :=
  detail.has_size_type_v C

/-- The generic `setArg` templates. -/
inductive Overload
  | scalar
  | container
  deriving DecidableEq, Repr

/-- The templates that take part in overload resolution for an argument of
type `T`. -/
def viable (T : CppType) : List Overload :=
  (if scalarEnabled T then [Overload.scalar] else []) ++
    (if containerEnabled T then [Overload.container] else [])

/-- The template `setArg(unsigned idx, const T val)`:
`setArg(idx, &val, sizeof(T))`. The raw overload it forwards to is `raw`. -/
def setArgScalar {σ : Type} (raw : Nat → VoidPtr → Nat → σ) (idx : Nat) (val : Value) : σ :=
  raw idx (VoidPtr.addressOf val.bytes) val.type.sizeof

/-- The template `setArg(unsigned idx, const Container& values)`:
`setArg(idx, values.data(), values.size() * sizeof(typename Container::value_type))`. -/
def setArgContainer {σ : Type} (raw : Nat → VoidPtr → Nat → σ) (idx : Nat)
    (values : Container) : σ :=
  raw idx values.data ((values.size * values.value_type.sizeof) % UINT64_MOD)

end MetalKernelFunction

/-! ## The driver test double -/

/-- Failures. `illFormed` marks a call for which no overload is viable: such a
program is rejected by the compiler and never runs. -/
inductive Error
  | compilationError (params : List String)
  | functionNotFound (name : String)
  | contractViolation
  | illFormed
  | thrown
  deriving DecidableEq, Repr

/-- What an argument slot is bound to. -/
inductive BindSource
  | bytes (ptr : VoidPtr)
  | buffer (deviceBuffer : Handle)
  deriving DecidableEq, Repr

/-- The calls the driver receives, in the order it receives them. -/
inductive DriverEvent
  | newLibrary (source : String) (params : List String) (options : Handle)
      (result : Option Handle)
  | newFunction (library : Handle) (name : String) (result : Option Handle)
  | newComputePipelineState (function : Handle) (result : Handle)
  | beginEncoding (session : Handle)
  | setComputePipelineState (session : Handle) (cps : Handle)
  | bind (session : Handle) (idx : Nat) (source : BindSource) (length : Nat)
  | dispatchThreads (session : Handle) (grid : Nat) (group : Nat)
  | endEncoding (session : Handle)
  deriving DecidableEq, Repr

/-- The fixed behaviour of the driver test double: which specialisations of a
source compile, which entry points the compiled module has, and the metadata
of a pipeline object. -/
structure DriverSpec where
  compiles : String → List String → Bool
  defines : String → List String → String → Bool
  maxTotalThreadsPerThreadgroup : Handle → Nat
  threadExecutionWidth : Handle → Nat
  staticThreadgroupMemoryLength : Handle → Nat

/-- State of the driver test double: the last handle it handed out (handles
are never reused, so two handles are equal only if they are the same object)
and the calls it received. -/
structure Driver where
  fresh : Nat
  events : List DriverEvent
  deriving DecidableEq, Repr

/-- A driver that has not been called yet. -/
def Driver.init : Driver := { fresh := 0, events := [] }

/-- The driver receives one more call. -/
def Driver.record (d : Driver) (e : DriverEvent) : Driver :=
  { d with events := d.events ++ [e] }

/-- Whether an event is a compilation of `source` for `params`. -/
def DriverEvent.isCompileOf (source : String) (params : List String) : DriverEvent → Bool
  | .newLibrary s p _ _ => decide (s = source) && decide (p = params)
  | _ => false

/-- The compile-count probe: how often the driver was asked to compile
`source` for `params`. -/
def Driver.compileCount (d : Driver) (source : String) (params : List String) : Nat :=
  (d.events.filter (DriverEvent.isCompileOf source params)).length

/-- Whether the pipeline object was set for the session. -/
def Driver.started (d : Driver) (session : Handle) : Bool :=
  d.events.any fun e =>
    match e with
    | .setComputePipelineState s _ => decide (s = session)
    | _ => false

/-- Whether an event opens a session. -/
def DriverEvent.isBegin : DriverEvent → Bool
  | .beginEncoding _ => true
  | _ => false

/-- The argument binds among the events. -/
def bindsOf : List DriverEvent → List DriverEvent
  | [] => []
  | .bind s i src n :: es => .bind s i src n :: bindsOf es
  | _ :: es => bindsOf es

/-! ## MetalKernelFunction -/

/-- The data members of `MetalKernelFunction`; `encoder` has the default member
initializer `nullptr`. -/
structure MetalKernelFunction where
  cps : Handle
  encoder : Handle := nullptr
  deriving DecidableEq, Repr

/-- An argument of a `setArg` call: a value for the scalar template, a value
for the container template, a tensor, or the pointer and size of the raw
overload. -/
inductive Arg
  | value (v : Value)
  | container (c : Container)
  | tensor (t : TensorBase)
  | raw (ptr : VoidPtr) (size : Nat)
  deriving DecidableEq, Repr

/-- The statements of a command block body: the session-scoped methods, an
early `return`, and an exception leaving the body. The 2-D dispatch, whose
default group size the specification leaves to the implementation, is not
among them. -/
inductive Call
  | startEncoding
  | setArg (idx : Nat) (a : Arg)
  | dispatch (length : Nat) (groupSize : Option Nat)
  | earlyReturn
  | raise
  deriving DecidableEq, Repr

namespace MetalKernelFunction

/-- Modelled from the spec: the constructor `MetalKernelFunction(cps_)` is
declared only. The object wraps one pipeline object; `encoder` keeps its
default member initializer. -/
def ctor (cps_ : Handle) : MetalKernelFunction := { cps := cps_ }

/-- Modelled from the spec: `getMaxThreadsPerThreadgroup` is declared only. It
is a pure read of the metadata of the wrapped pipeline object, as `uint64_t`. -/
def getMaxThreadsPerThreadgroup (o : DriverSpec) (k : MetalKernelFunction) : Nat :=
  o.maxTotalThreadsPerThreadgroup k.cps % UINT64_MOD

/-- Modelled from the spec: `getThreadExecutionWidth` is declared only. -/
def getThreadExecutionWidth (o : DriverSpec) (k : MetalKernelFunction) : Nat :=
  o.threadExecutionWidth k.cps % UINT64_MOD

/-- Modelled from the spec: `getStaticThreadGroupMemoryLength` is declared only. -/
def getStaticThreadGroupMemoryLength (o : DriverSpec) (k : MetalKernelFunction) : Nat :=
  o.staticThreadgroupMemoryLength k.cps % UINT64_MOD

/-- Modelled from the spec: `startEncoding` is declared only. It binds the
wrapped pipeline object as the compute program of the active session; without
an active session it is a contract violation. -/
def startEncoding (k : MetalKernelFunction) (d : Driver) : Except Error Driver :=
  if k.encoder = nullptr then .error .contractViolation
  else .ok (d.record (.setComputePipelineState k.encoder k.cps))

/-- Modelled from the spec: the raw overload
`setArg(unsigned idx, const void* ptr, uint64_t size)` is declared only. It
binds `size` bytes at `ptr` to slot `idx` of the active session; without an
active session it is a contract violation. -/
def setArgRaw (k : MetalKernelFunction) (idx : Nat) (ptr : VoidPtr) (size : Nat)
    (d : Driver) : Except Error Driver :=
  if k.encoder = nullptr then .error .contractViolation
  else .ok (d.record (.bind k.encoder idx (.bytes ptr) size))

/-- Modelled from the spec: the overload `setArg(unsigned idx, const TensorBase& t)`
is declared only. It binds the device buffer of the tensor at slot `idx`,
consuming the pair of buffer handle and byte size. -/
def setArgTensor (k : MetalKernelFunction) (idx : Nat) (t : TensorBase)
    (d : Driver) : Except Error Driver :=
  if k.encoder = nullptr then .error .contractViolation
  else .ok (d.record (.bind k.encoder idx (.buffer t.buffer) t.nbytes))

/-- The call `setArg(idx, a)`: overload resolution, then the chosen overload.
The two templates are the inline code of the header, forwarding to the raw
overload. -/
def setArg (k : MetalKernelFunction) (idx : Nat) (a : Arg) (d : Driver) : Except Error Driver :=
  match a with
  | .value v =>
    if scalarEnabled v.type then setArgScalar (setArgRaw k) idx v d
    else .error .illFormed
  | .container c =>
    if containerEnabled c.type then setArgContainer (setArgRaw k) idx c d
    else .error .illFormed
  | .tensor t => setArgTensor k idx t d
  | .raw ptr size => setArgRaw k idx ptr size d

/-- Modelled from the spec: the group size of the 1-D dispatch when the caller
gives none is `min(length, maxThreadsPerThreadgroup)`. -/
def defaultGroupSize (o : DriverSpec) (k : MetalKernelFunction) (length : Nat) : Nat :=
  min length (getMaxThreadsPerThreadgroup o k)

/-- Modelled from the spec: `dispatch(length, groupSize)` is declared only. It
issues the dispatch over a grid of `length` threads with the given group size,
or the default one; without an active session, or without a prior
`startEncoding` in the session, it is a contract violation. -/
def dispatch (o : DriverSpec) (k : MetalKernelFunction) (length : Nat)
    (groupSize : Option Nat) (d : Driver) : Except Error Driver :=
  if k.encoder = nullptr then .error .contractViolation
  else if d.started k.encoder = false then .error .contractViolation
  else
    .ok (d.record
      (.dispatchThreads k.encoder length (groupSize.getD (defaultGroupSize o k length))))

/-- One statement of a body. An exception is a failure; an early return is
handled by `runBody`. -/
def step (o : DriverSpec) (k : MetalKernelFunction) (c : Call) (d : Driver) :
    Except Error Driver :=
  match c with
  | .startEncoding => startEncoding k d
  | .setArg idx a => setArg k idx a d
  | .dispatch length groupSize => dispatch o k length groupSize d
  | .earlyReturn => .ok d
  | .raise => .error .thrown

/-- The body of a command block, statement by statement: an early return ends
it normally, a failing statement or an exception ends it abnormally. -/
def runBody (o : DriverSpec) (k : MetalKernelFunction) : List Call → Driver →
    Except Error Unit × Driver
  | [], d => (.ok (), d)
  | .earlyReturn :: _, d => (.ok (), d)
  | c :: rest, d =>
    match step o k c d with
    | .ok d1 => runBody o k rest d1
    | .error e => (.error e, d)

/-- Modelled from the spec: `runCommandBlock` is declared only. It acquires a
fresh encoding session, runs the body, and releases the session when the body
returns or exits abnormally; a second session on the same object while one is
active is a contract violation. -/
def runCommandBlock (o : DriverSpec) (f : List Call) (k : MetalKernelFunction) (d : Driver) :
    Except Error Unit × MetalKernelFunction × Driver :=
  if k.encoder ≠ nullptr then (.error .contractViolation, k, d)
  else
    let session := d.fresh + 1
    let k1 := { k with encoder := session }
    let d1 := { d with fresh := session }.record (.beginEncoding session)
    let r := runBody o k1 f d1
    (r.1, { k1 with encoder := nullptr }, r.2.record (.endEncoding session))

/-- The statements of a body that are reached: those before the first early
return. -/
def issued : List Call → List Call
  | [] => []
  | .earlyReturn :: _ => []
  | c :: rest => c :: issued rest

/-- The bind a `setArg` call asks of the driver in session `session`. -/
def expectedBind (session : Handle) (idx : Nat) : Arg → DriverEvent
  | .value v => .bind session idx (.bytes (.addressOf v.bytes)) v.type.sizeof
  | .container c =>
    .bind session idx (.bytes c.data) (c.size * c.value_type.sizeof)
  | .tensor t => .bind session idx (.buffer t.buffer) t.nbytes
  | .raw ptr size => .bind session idx (.bytes ptr) size

/-- The `setArg` calls among a list of statements, in order. -/
def setArgCalls : List Call → List (Nat × Arg)
  | [] => []
  | .setArg idx a :: rest => (idx, a) :: setArgCalls rest
  | _ :: rest => setArgCalls rest

/-- A container is well formed when its storage fits the address space, so
that `size() * sizeof(value_type)` does not wrap. -/
def containerFits (c : Container) : Bool :=
  decide (c.size * c.value_type.sizeof < UINT64_MOD)

/-- Every container argument among the statements is well formed. -/
def containersFit : List Call → Bool
  | [] => true
  | .setArg _ (.container c) :: rest => containerFits c && containersFit rest
  | _ :: rest => containersFit rest

/-- A history of command blocks on one kernel function object, their results
dropped. -/
def runBlocks (o : DriverSpec) : List (List Call) → MetalKernelFunction → Driver →
    MetalKernelFunction × Driver
  | [], k, d => (k, d)
  | f :: fs, k, d => runBlocks o fs (runCommandBlock o f k d).2.1 (runCommandBlock o f k d).2.2

end MetalKernelFunction

/-! ## MetalShaderLibrary -/

/-- An `std::unordered_map` as an association list; a key is bound to the value
of its first entry. -/
def find? {κ ν : Type} [DecidableEq κ] (key : κ) : List (κ × ν) → Option ν
  | [] => none
  | (k, v) :: rest => if k = key then some v else find? key rest

/-- The `std::string` keys of the two maps. They are built in the bodies of
`getLibrary(params)` and `getLibraryPipelineState`, which are missing, and the
specification does not say how a key is built from a parameter list, or from
a module and an entry point name. The two builders are therefore parameters:
what is proved holds for every choice of them. -/
structure CacheKeys where
  moduleKey : List String → String
  pipelineKey : Handle → String → String

/-- The data members of `MetalShaderLibrary`. `library` has the default member
initializer `nullptr` and the two maps, both keyed by `std::string`, start
empty. -/
structure MetalShaderLibrary where
  shaderSource : String
  nparams : Nat
  compile_options : Handle
  library : Handle := nullptr
  libMap : List (String × Handle) := []
  cplMap : List (String × (Handle × Handle)) := []
  deriving DecidableEq, Repr

/-- A library together with the driver it talks to. -/
abbrev LibState := MetalShaderLibrary × Driver

/-- A member function of the library: it returns a value or fails, and leaves
a new state either way. -/
abbrev LibM (α : Type) := LibState → Except Error α × LibState

/-- Sequencing of two member function calls; a failure of the first one
propagates. -/
def LibM.bind {α β : Type} (x : LibM α) (f : α → LibM β) : LibM β := fun s =>
  match x s with
  | (.ok a, s1) => f a s1
  | (.error e, s1) => (.error e, s1)

/-- Post-processing of the result of a member function call. -/
def LibM.map {α β : Type} (f : α → β) (x : LibM α) : LibM β := fun s =>
  match x s with
  | (.ok a, s1) => (.ok (f a), s1)
  | (.error e, s1) => (.error e, s1)

namespace MetalShaderLibrary

/-- The constructor `MetalShaderLibrary(const std::string& src)`. -/
def ctor (src : String) : MetalShaderLibrary :=
  { shaderSource := src, nparams := 0, compile_options := nullptr }

/-- The constructor `MetalShaderLibrary(const std::string& src, unsigned nparams_)`. -/
def ctorN (src : String) (nparams_ : Nat) : MetalShaderLibrary :=
  { shaderSource := src, nparams := nparams_, compile_options := nullptr }

/-- Modelled from the spec: `getLibrary(params)` is declared only. On the first
request under a key it has the driver compile the stored source for the
parameters with the stored compile options and caches the module in `libMap`;
a failed compilation is reported and not cached; on a cache hit the cached
module is returned and the driver is not called. The spec attaches no behaviour
to `nparams`. -/
def getLibraryParams (kb : CacheKeys) (o : DriverSpec) (params : List String) :
    LibM Handle := fun s =>
  match find? (kb.moduleKey params) s.1.libMap with
  | some lib => (.ok lib, s)
  | none =>
    if o.compiles s.1.shaderSource params then
      let lib := s.2.fresh + 1
      (.ok lib,
        { s.1 with libMap := (kb.moduleKey params, lib) :: s.1.libMap },
        { s.2 with fresh := lib }.record
          (.newLibrary s.1.shaderSource params s.1.compile_options (some lib)))
    else
      (.error (.compilationError params), s.1,
        s.2.record (.newLibrary s.1.shaderSource params s.1.compile_options none))

/-- Modelled from the spec: `getLibrary()` is declared only. It is the request
for the module of the empty parameter list. -/
def getLibrary (kb : CacheKeys) (o : DriverSpec) : LibM Handle :=
  getLibraryParams kb o []

end MetalShaderLibrary

namespace DynamicMetalShaderLibrary

/-- The constructor `DynamicMetalShaderLibrary(const std::string& src)`: the
base class constructor `MetalShaderLibrary(src)`, then the statement
`getLibrary();`, whose result is dropped. The state `σ` is whatever
`getLibrary` acts on besides the library. -/
def ctor {σ : Type}
    (getLibrary : MetalShaderLibrary × σ → Except Error Handle × (MetalShaderLibrary × σ))
    (src : String) (world : σ) : Except Error Unit × (MetalShaderLibrary × σ) :=
  match getLibrary (MetalShaderLibrary.ctor src, world) with
  | (.ok _, s) => (.ok (), s)
  | (.error e, s) => (.error e, s)

end DynamicMetalShaderLibrary

/-- One call of the raw overload `setArg(unsigned, const void*, uint64_t)`. -/
structure RawCall where
  idx : Nat
  ptr : VoidPtr
  size : Nat
  deriving DecidableEq, Repr

/-- A raw overload that only records its calls. -/
def recordRaw (idx : Nat) (ptr : VoidPtr) (size : Nat) (log : List RawCall) : List RawCall :=
  log ++ [{ idx := idx, ptr := ptr, size := size }]

/-- A `getLibrary` that only counts its calls. -/
def countGetLibrary (s : MetalShaderLibrary × Nat) :
    Except Error Handle × (MetalShaderLibrary × Nat) :=
  (.ok s.1.library, s.1, s.2 + 1)

/-- The type `std::vector<float>`: a class with the usual member types, not
trivially copyable. -/
def vectorFloat : CppType :=
  .class_ { memberTypes := ["value_type", "size_type", "iterator"],
            trivially_copyable := false, size := 24 }

/-- A driver test double: every source compiles, every entry point exists, and
every pipeline object has a cap of 256 threads per group. -/
def sampleDriver : DriverSpec :=
  { compiles := fun _ _ => true
    defines := fun _ _ _ => true
    maxTotalThreadsPerThreadgroup := fun _ => 256
    threadExecutionWidth := fun _ => 32
    staticThreadgroupMemoryLength := fun _ => 0 }

/-- A kernel function object in the middle of a command block: its session is
handle 1. -/
def sampleKernel : MetalKernelFunction := { cps := 7, encoder := 1 }

/-- A driver that has seen the session 1 begin and its pipeline object set. -/
def sampleStarted : Driver :=
  { fresh := 1, events := [.beginEncoding 1, .setComputePipelineState 1 7] }

/-- A command block body: an `int` at slot 0, four floats at slot 1, a device
buffer of 64 bytes at slot 2, then a dispatch of length 1 with group size 1. -/
def sampleBody : List Call :=
  [.startEncoding,
   .setArg 0 (.value { type := .integral .int, bytes := [42, 0, 0, 0] }),
   .setArg 1 (.container { type := vectorFloat, value_type := .floating .float,
                           data := .address 4096, size := 4 }),
   .setArg 2 (.tensor { buffer := 9, nbytes := 64 }),
   .dispatch 1 (some 1)]

open MetalKernelFunction

/-- C2: the container overload of `setArg` is the only viable template for a
type with a `size_type` member, and it forwards exactly one raw bind: same
slot, the pointer `data()`, and a byte length of element count times element
size; an empty container binds 0 bytes. -/
theorem container_setArg_forwards {σ : Type} (raw : Nat → VoidPtr → Nat → σ) (idx : Nat)
    (values : Container) (hsize : detail.has_size_type_v values.type = true)
    (hfit : containerFits values = true) :
    viable values.type = [Overload.container] ∧
    setArgContainer raw idx values
      = raw idx values.data (values.size * values.value_type.sizeof) ∧
    (∀ log : List RawCall, setArgContainer recordRaw idx values log
      = log ++ [{ idx := idx, ptr := values.data,
                  size := values.size * values.value_type.sizeof }]) ∧
    (values.size = 0 → setArgContainer raw idx values = raw idx values.data 0) := by
  have hmod : (values.size * values.value_type.sizeof) % UINT64_MOD
      = values.size * values.value_type.sizeof := by
    apply Nat.mod_eq_of_lt
    simpa [containerFits] using hfit
  refine ⟨?_, ?_, ?_, ?_⟩
  · simp [viable, scalarEnabled, containerEnabled, hsize]
    cases hT : values.type <;> simp_all [is_integral_v, is_same_v_float, detail.has_size_type_v,
      detail.has_size_type.value, detail.has_size_type.check, CppType.hasMemberType]
  · simp [setArgContainer, hmod]
  · intro log
    simp [setArgContainer, hmod, recordRaw]
  · intro h0
    simp [setArgContainer, h0]

/-- Four floats at slot 1 bind 16 bytes. -/
theorem container_setArg_forwards_witness :
    detail.has_size_type_v vectorFloat = true ∧
    containerFits { type := vectorFloat, value_type := .floating .float,
                    data := .address 4096, size := 4 } = true ∧
    setArgContainer recordRaw 1
      { type := vectorFloat, value_type := .floating .float, data := .address 4096, size := 4 } []
      = [{ idx := 1, ptr := .address 4096, size := 16 }] :=
  ⟨by decide, by decide,
    (container_setArg_forwards recordRaw 1
      { type := vectorFloat, value_type := .floating .float, data := .address 4096, size := 4 }
      (by decide) (by decide)).2.2.1 []⟩

/-- The member detection idiom finds no `size_type` in a type that is not a
class or a union. -/
theorem has_size_type_v_eq (T : CppType) :
    detail.has_size_type_v T = T.hasMemberType "size_type" := by
  unfold detail.has_size_type_v detail.has_size_type.value detail.has_size_type.check
  cases h : T.hasMemberType "size_type" <;> simp

/-- An integral type or `float` has no member types. -/
theorem hasMemberType_of_arithmetic (T : CppType) (n : String)
    (h : (is_integral_v T || is_same_v_float T) = true) : T.hasMemberType n = false := by
  cases T <;> simp_all [is_integral_v, is_same_v_float, CppType.hasMemberType]

/-- C3: the scalar overload of `setArg` is the only viable template for an
accepted type (integral, `float`, or trivially copyable class without
`size_type`), and it forwards exactly one raw bind at the same slot, of
`sizeof(T)` bytes, from the address of a copy of the value. -/
theorem scalar_setArg_forwards {σ : Type} (raw : Nat → VoidPtr → Nat → σ) (idx : Nat)
    (val : Value) (haccepted : scalarEnabled val.type = true)
    (hrepr : val.bytes.length = val.type.sizeof) :
    viable val.type = [Overload.scalar] ∧
    setArgScalar raw idx val = raw idx (VoidPtr.addressOf val.bytes) val.type.sizeof ∧
    (∀ log : List RawCall, setArgScalar recordRaw idx val log
      = log ++ [{ idx := idx, ptr := VoidPtr.addressOf val.bytes,
                  size := val.bytes.length }]) := by
  refine ⟨?_, rfl, ?_⟩
  · have hno : containerEnabled val.type = false := by
      unfold containerEnabled
      unfold scalarEnabled at haccepted
      cases hs : detail.has_size_type_v val.type
      · rfl
      · rw [has_size_type_v_eq] at hs
        cases harith : (is_integral_v val.type || is_same_v_float val.type)
        · simp only [Bool.or_eq_false_iff] at harith
          simp [harith.1, harith.2, has_size_type_v_eq, hs] at haccepted
        · rw [hasMemberType_of_arithmetic _ _ harith] at hs
          cases hs
    simp [viable, haccepted, hno]
  · intro log
    simp [setArgScalar, recordRaw, hrepr]

/-- An `int` at slot 0 binds its 4 bytes. -/
theorem scalar_setArg_forwards_witness :
    scalarEnabled (CppType.integral .int) = true ∧
    ([42, 0, 0, 0] : List Nat).length = (CppType.integral .int).sizeof ∧
    setArgScalar recordRaw 0 { type := .integral .int, bytes := [42, 0, 0, 0] } []
      = [{ idx := 0, ptr := .addressOf [42, 0, 0, 0], size := 4 }] :=
  ⟨by decide, by decide,
    (scalar_setArg_forwards recordRaw 0 { type := .integral .int, bytes := [42, 0, 0, 0] }
      (by decide) (by decide)).2.2 []⟩

/-- C5: the enabling conditions of the scalar overload and of the container
overload of `setArg` never hold together, so at most one template is viable;
no integral type and not `float` has a `size_type` member. -/
theorem setArg_overloads_exclusive (T : CppType) :
    (scalarEnabled T && containerEnabled T) = false ∧
    (viable T).length ≤ 1 ∧
    ((is_integral_v T || is_same_v_float T) && detail.has_size_type_v T) = false := by
  have h3 : ((is_integral_v T || is_same_v_float T) && detail.has_size_type_v T) = false := by
    cases harith : (is_integral_v T || is_same_v_float T)
    · simp
    · rw [has_size_type_v_eq, hasMemberType_of_arithmetic _ _ harith]
      simp
  have h1 : (scalarEnabled T && containerEnabled T) = false := by
    unfold scalarEnabled containerEnabled
    cases hs : detail.has_size_type_v T
    · simp
    · rw [hs] at h3
      cases harith : (is_integral_v T || is_same_v_float T)
      · simp only [Bool.or_eq_false_iff] at harith
        simp [harith.1, harith.2]
      · rw [harith] at h3
        cases h3
  refine ⟨h1, ?_, h3⟩
  unfold viable
  cases hsc : scalarEnabled T <;> cases hco : containerEnabled T <;> simp
  rw [hsc, hco] at h1
  cases h1

/-- C6 fails at `double`: it is trivially copyable and has no `size_type`
member, yet the scalar overload does not accept it, no template is viable, and
a `setArg` call with a `double` is ill-formed. -/
theorem double_not_bindable :
    is_trivially_copyable_v (CppType.floating .double) = true ∧
    detail.has_size_type_v (CppType.floating .double) = false ∧
    scalarEnabled (CppType.floating .double) = false ∧
    viable (CppType.floating .double) = [] ∧
    setArg { cps := 1, encoder := 1 } 0
      (.value { type := .floating .double, bytes := [0, 0, 0, 0, 0, 0, 0, 0] }) Driver.init
      = .error .illFormed :=
  ⟨by decide, by decide, by decide, by decide, rfl⟩

/-- C6, amended: a trivially copyable type without `size_type` member is
accepted by the scalar overload exactly when it is integral, `float` or a
class, and an accepted value is bound by one raw bind of `sizeof(T)` bytes
from a copy of the value. -/
theorem scalar_overload_accepts {σ : Type} (raw : Nat → VoidPtr → Nat → σ) (idx : Nat)
    (val : Value) (htriv : is_trivially_copyable_v val.type = true)
    (hnosize : detail.has_size_type_v val.type = false) :
    scalarEnabled val.type
      = (is_integral_v val.type || is_same_v_float val.type || is_class_v val.type) ∧
    (scalarEnabled val.type = true →
      viable val.type = [Overload.scalar] ∧
      setArgScalar raw idx val = raw idx (VoidPtr.addressOf val.bytes) val.type.sizeof) ∧
    (scalarEnabled val.type = false → viable val.type = []) := by
  refine ⟨?_, ?_, ?_⟩
  · simp [scalarEnabled, htriv, hnosize]
  · intro h
    refine ⟨?_, rfl⟩
    simp [viable, h, containerEnabled, hnosize]
  · intro h
    simp [viable, h, containerEnabled, hnosize]

/-- A `float` is accepted and bound by its 4 bytes. -/
theorem scalar_overload_accepts_witness :
    is_trivially_copyable_v (CppType.floating .float) = true ∧
    detail.has_size_type_v (CppType.floating .float) = false ∧
    scalarEnabled (CppType.floating .float) = true ∧
    setArgScalar recordRaw 3 { type := .floating .float, bytes := [0, 0, 128, 63] } []
      = [{ idx := 3, ptr := .addressOf [0, 0, 128, 63], size := 4 }] :=
  ⟨by decide, by decide, by decide,
    congrFun ((scalar_overload_accepts recordRaw 3
      { type := .floating .float, bytes := [0, 0, 128, 63] } (by decide) (by decide)).2.1
        (by decide)).2 []⟩

/-- C7: inside a started session the 1-D dispatch without group size uses
`min(length, maxThreadsPerThreadgroup)`, which exceeds neither the grid length
nor the cap (cap 256: length 100 gives 100, length 1000 gives 256); a group
size that is supplied is used unchanged. -/
theorem dispatch_default_group_size (o : DriverSpec) (k : MetalKernelFunction) (length : Nat)
    (d : Driver) (hsession : k.encoder ≠ nullptr) (hstarted : d.started k.encoder = true) :
    dispatch o k length none d
      = .ok (d.record (.dispatchThreads k.encoder length
          (min length (getMaxThreadsPerThreadgroup o k)))) ∧
    min length (getMaxThreadsPerThreadgroup o k) ≤ length ∧
    min length (getMaxThreadsPerThreadgroup o k) ≤ getMaxThreadsPerThreadgroup o k ∧
    (∀ g : Nat, dispatch o k length (some g) d
      = .ok (d.record (.dispatchThreads k.encoder length g))) ∧
    (getMaxThreadsPerThreadgroup o k = 256 →
      dispatch o k 100 none d = .ok (d.record (.dispatchThreads k.encoder 100 100)) ∧
      dispatch o k 1000 none d = .ok (d.record (.dispatchThreads k.encoder 1000 256))) := by
  refine ⟨?_, Nat.min_le_left _ _, Nat.min_le_right _ _, ?_, ?_⟩
  · simp [dispatch, hsession, hstarted, defaultGroupSize]
  · intro g
    simp [dispatch, hsession, hstarted]
  · intro hcap
    simp [dispatch, hsession, hstarted, defaultGroupSize, hcap]

/-- With a cap of 256 a grid of 100 threads is dispatched in one group of 100. -/
theorem dispatch_default_group_size_witness :
    sampleKernel.encoder ≠ nullptr ∧ sampleStarted.started sampleKernel.encoder = true ∧
    dispatch sampleDriver sampleKernel 100 none sampleStarted
      = .ok { fresh := 1, events := [.beginEncoding 1, .setComputePipelineState 1 7,
                                     .dispatchThreads 1 100 100] } :=
  ⟨by decide, by decide,
    (dispatch_default_group_size sampleDriver sampleKernel 100 sampleStarted
      (by decide) (by decide)).1⟩

/-- C10: the constructor `DynamicMetalShaderLibrary(src)` runs `getLibrary()`
exactly once, on the library that `MetalShaderLibrary(src)` constructs, which
has `nparams = 0`, no compile options, a null library handle and empty caches;
with the `getLibrary()` of the specification the driver is asked for exactly one
compilation; the plain constructor calls nothing. -/
theorem dynamic_ctor_calls_getLibrary_once {σ : Type}
    (getLibrary : MetalShaderLibrary × σ → Except Error Handle × (MetalShaderLibrary × σ))
    (src : String) (world : σ) (count : Nat) :
    (DynamicMetalShaderLibrary.ctor getLibrary src world).2
      = (getLibrary (MetalShaderLibrary.ctor src, world)).2 ∧
    (DynamicMetalShaderLibrary.ctor countGetLibrary src count).2.2 = count + 1 ∧
    (∀ (kb : CacheKeys) (o : DriverSpec) (d : Driver),
      (DynamicMetalShaderLibrary.ctor (MetalShaderLibrary.getLibrary kb o) src
        d).2.2.compileCount src [] = d.compileCount src [] + 1) ∧
    (MetalShaderLibrary.ctor src).shaderSource = src ∧
    (MetalShaderLibrary.ctor src).nparams = 0 ∧
    (MetalShaderLibrary.ctor src).compile_options = nullptr ∧
    (MetalShaderLibrary.ctor src).library = nullptr ∧
    (MetalShaderLibrary.ctor src).libMap = [] ∧
    (MetalShaderLibrary.ctor src).cplMap = [] := by
  refine ⟨?_, rfl, ?_, rfl, rfl, rfl, rfl, rfl, rfl⟩
  · unfold DynamicMetalShaderLibrary.ctor
    rcases h : getLibrary (MetalShaderLibrary.ctor src, world) with ⟨r, s⟩
    cases r <;> rfl
  · intro kb o d
    unfold DynamicMetalShaderLibrary.ctor MetalShaderLibrary.getLibrary
      MetalShaderLibrary.getLibraryParams
    simp only [MetalShaderLibrary.ctor, find?]
    by_cases hc : o.compiles src [] = true <;>
      simp [hc, Driver.compileCount, Driver.record, DriverEvent.isCompileOf,
        List.filter_append]

/-- The binds among appended events. -/
theorem bindsOf_append (a b : List DriverEvent) : bindsOf (a ++ b) = bindsOf a ++ bindsOf b := by
  induction a with
  | nil => rfl
  | cons e es ih => cases e <;> simp [bindsOf, ih]

/-- A body that does not start with an early return runs its first statement. -/
theorem runBody_cons (o : DriverSpec) (k : MetalKernelFunction) (c : Call) (rest : List Call)
    (d : Driver) (hc : c ≠ .earlyReturn) :
    runBody o k (c :: rest) d =
      match step o k c d with
      | .ok d1 => runBody o k rest d1
      | .error e => (.error e, d) := by
  cases c <;> simp [runBody] at hc ⊢

/-- A statement that succeeds hands the driver at most one event, never the
opening of a session, and a `setArg` call hands it the expected bind. -/
theorem step_events (o : DriverSpec) (k : MetalKernelFunction) (c : Call) (d d1 : Driver)
    (h : step o k c d = .ok d1) :
    d1.fresh = d.fresh ∧
    ∃ es, d1.events = d.events ++ es ∧ es.all (fun e => !e.isBegin) = true ∧
      (containersFit [c] = true →
        bindsOf es = (setArgCalls [c]).map fun x => expectedBind k.encoder x.1 x.2) := by
  by_cases hk : k.encoder = nullptr
  · cases c with
    | startEncoding => simp [step, startEncoding, hk] at h
    | setArg idx a =>
      cases a <;>
        simp [step, setArg, setArgScalar, setArgContainer, setArgTensor, setArgRaw, hk] at h <;>
        (split at h <;> cases h)
    | dispatch length groupSize => simp [step, dispatch, hk] at h
    | earlyReturn =>
      cases h
      exact ⟨rfl, [], by simp, rfl, fun _ => rfl⟩
    | raise => cases h
  · cases c with
    | startEncoding =>
      simp only [step, startEncoding, hk, if_false] at h
      cases h
      exact ⟨rfl, [_], rfl, rfl, fun _ => rfl⟩
    | setArg idx a =>
      cases a with
      | value v =>
        simp only [step, setArg, setArgScalar, setArgRaw, hk, if_false] at h
        split at h
        · cases h
          exact ⟨rfl, [_], rfl, rfl, fun _ => rfl⟩
        · cases h
      | container c =>
        simp only [step, setArg, setArgContainer, setArgRaw, hk, if_false] at h
        split at h
        · cases h
          refine ⟨rfl, [_], rfl, rfl, fun hfit => ?_⟩
          have hlt : c.size * c.value_type.sizeof < UINT64_MOD := by
            simpa [containersFit, containerFits] using hfit
          simp [bindsOf, setArgCalls, expectedBind, Nat.mod_eq_of_lt hlt]
        · cases h
      | tensor t =>
        simp only [step, setArg, setArgTensor, hk, if_false] at h
        cases h
        exact ⟨rfl, [_], rfl, rfl, fun _ => rfl⟩
      | raw ptr size =>
        simp only [step, setArg, setArgRaw, hk, if_false] at h
        cases h
        exact ⟨rfl, [_], rfl, rfl, fun _ => rfl⟩
    | dispatch length groupSize =>
      simp only [step, dispatch, hk, if_false] at h
      split at h
      · cases h
      · cases h
        exact ⟨rfl, [_], rfl, rfl, fun _ => rfl⟩
    | earlyReturn =>
      cases h
      exact ⟨rfl, [], by simp, rfl, fun _ => rfl⟩
    | raise => cases h

/-- The statements reached in a body that does not start with an early return. -/
theorem issued_cons (c : Call) (rest : List Call) (hc : c ≠ .earlyReturn) :
    issued (c :: rest) = c :: issued rest := by
  cases c <;> simp [issued] at hc ⊢

/-- The `setArg` calls of a statement followed by others. -/
theorem setArgCalls_cons (c : Call) (rest : List Call) :
    setArgCalls (c :: rest) = setArgCalls [c] ++ setArgCalls rest := by
  cases c <;> simp [setArgCalls]

/-- Well-formedness of the containers of a statement followed by others. -/
theorem containersFit_cons (c : Call) (rest : List Call) :
    containersFit (c :: rest) = (containersFit [c] && containersFit rest) := by
  cases c with
  | setArg idx a => cases a <;> simp [containersFit]
  | _ => simp [containersFit]

/-- A body leaves the handle counter of the driver alone, hands the driver no
opening of a session, and, when it ends normally, the binds of the `setArg`
calls it reached, one per call and in their order. -/
theorem runBody_events (o : DriverSpec) (k : MetalKernelFunction) (f : List Call) :
    ∀ d : Driver, (runBody o k f d).2.fresh = d.fresh ∧
      ∃ es, (runBody o k f d).2.events = d.events ++ es ∧
        es.all (fun e => !e.isBegin) = true ∧
        ((runBody o k f d).1 = .ok () → containersFit (issued f) = true →
          bindsOf es = (setArgCalls (issued f)).map fun x => expectedBind k.encoder x.1 x.2) := by
  induction f with
  | nil =>
    intro d
    exact ⟨rfl, [], by simp [runBody], rfl, fun _ _ => rfl⟩
  | cons c rest ih =>
    intro d
    by_cases hc : c = .earlyReturn
    · subst hc
      exact ⟨rfl, [], by simp [runBody], rfl, fun _ _ => rfl⟩
    · rw [runBody_cons o k c rest d hc, issued_cons c rest hc]
      cases hstep : step o k c d with
      | error e =>
        exact ⟨rfl, [], by simp, rfl, fun h => by cases h⟩
      | ok d1 =>
        obtain ⟨hfresh1, es1, hev1, hnb1, hb1⟩ := step_events o k c d d1 hstep
        obtain ⟨hfresh2, es2, hev2, hnb2, hb2⟩ := ih d1
        refine ⟨by simp only [hfresh2, hfresh1], es1 ++ es2, ?_, ?_, ?_⟩
        · simp only [hev2, hev1, List.append_assoc]
        · simp only [List.all_append, hnb1, hnb2, Bool.and_self]
        · intro hok hfit
          rw [containersFit_cons, Bool.and_eq_true] at hfit
          rw [bindsOf_append, hb1 hfit.1, hb2 hok hfit.2, setArgCalls_cons c (issued rest),
            List.map_append]

/-- C4: in a command block that ends normally the driver receives, between
the opening and the closing of the session, one bind per `setArg` call that
was reached, in the order of the calls and at their slots; an `int` at slot 0,
four floats at slot 1 and a device buffer at slot 2 give three binds of
`sizeof(int)`, `4 * sizeof(float)` and the size of the buffer, in that order. -/
theorem binds_in_call_order (o : DriverSpec) (k : MetalKernelFunction) (d : Driver)
    (f : List Call) (hidle : k.encoder = nullptr)
    (hfit : containersFit (issued f) = true)
    (hok : (runCommandBlock o f k d).1 = .ok ()) :
    (∃ es, (runCommandBlock o f k d).2.2.events
        = d.events ++ [.beginEncoding (d.fresh + 1)] ++ es ++ [.endEncoding (d.fresh + 1)] ∧
      bindsOf es = (setArgCalls (issued f)).map fun x => expectedBind (d.fresh + 1) x.1 x.2) ∧
    ∀ (v : Value) (c : Container) (t : TensorBase),
      v.type = .integral .int → detail.has_size_type_v c.type = true →
      c.value_type = .floating .float → c.size = 4 →
      runCommandBlock o
          [.startEncoding, .setArg 0 (.value v), .setArg 1 (.container c),
           .setArg 2 (.tensor t), .dispatch 1 (some 1)] k d
        = (.ok (), k,
            { fresh := d.fresh + 1,
              events := d.events ++
                [.beginEncoding (d.fresh + 1),
                 .setComputePipelineState (d.fresh + 1) k.cps,
                 .bind (d.fresh + 1) 0 (.bytes (.addressOf v.bytes)) (CppType.integral .int).sizeof,
                 .bind (d.fresh + 1) 1 (.bytes c.data) (4 * (CppType.floating .float).sizeof),
                 .bind (d.fresh + 1) 2 (.buffer t.buffer) t.nbytes,
                 .dispatchThreads (d.fresh + 1) 1 1,
                 .endEncoding (d.fresh + 1)] }) := by
  constructor
  · have hne : ¬ k.encoder ≠ nullptr := by simp [hidle]
    simp only [runCommandBlock, hne, if_false] at hok ⊢
    obtain ⟨-, es, hev, -, hb⟩ := runBody_events o { k with encoder := d.fresh + 1 } f
      ({ d with fresh := d.fresh + 1 }.record (.beginEncoding (d.fresh + 1)))
    refine ⟨es, ?_, hb hok hfit⟩
    simp only [Driver.record] at hev ⊢
    rw [hev]
  · intro v c t hv hc hvt hsz
    have hne : ¬ k.encoder ≠ nullptr := by simp [hidle]
    have hs : d.fresh + 1 ≠ nullptr := by simp [nullptr]
    have hce : containerEnabled c.type = true := hc
    simp [runCommandBlock, hne, runBody, step, startEncoding, setArg, setArgScalar,
      setArgContainer, setArgTensor, setArgRaw, dispatch, hs, hv, hce, hvt, hsz, scalarEnabled,
      is_integral_v, Driver.record, Driver.started, UINT64_MOD, CppType.sizeof,
      FloatingKind.sizeof, IntegralKind.sizeof]
    cases k
    simp_all

/-- The sample body yields the three binds of 4, 16 and 64 bytes. -/
theorem binds_in_call_order_witness :
    (MetalKernelFunction.ctor 7).encoder = nullptr ∧
    containersFit (issued sampleBody) = true ∧
    (runCommandBlock sampleDriver sampleBody (MetalKernelFunction.ctor 7) Driver.init).1
      = .ok () ∧
    ∃ es, (runCommandBlock sampleDriver sampleBody (MetalKernelFunction.ctor 7)
            Driver.init).2.2.events
        = [] ++ [.beginEncoding 1] ++ es ++ [.endEncoding 1] ∧
      bindsOf es =
        [.bind 1 0 (.bytes (.addressOf [42, 0, 0, 0])) 4,
         .bind 1 1 (.bytes (.address 4096)) 16,
         .bind 1 2 (.buffer 9) 64] :=
  ⟨rfl, by decide, rfl,
    (binds_in_call_order sampleDriver (MetalKernelFunction.ctor 7) Driver.init sampleBody
      rfl (by decide) rfl).1⟩

/-- A command block on an idle object returns the object idle, takes one
handle from the driver, and hands the driver the opening of the new session,
events of the body that open no session, and the closing of the session. -/
theorem runCommandBlock_idle (o : DriverSpec) (f : List Call) (k : MetalKernelFunction)
    (d : Driver) (hidle : k.encoder = nullptr) :
    (runCommandBlock o f k d).2.1 = k ∧
    (runCommandBlock o f k d).2.2.fresh = d.fresh + 1 ∧
    ∃ es, (runCommandBlock o f k d).2.2.events
        = d.events ++ [.beginEncoding (d.fresh + 1)] ++ es ++ [.endEncoding (d.fresh + 1)] ∧
      es.all (fun e => !e.isBegin) = true := by
  have hne : ¬ k.encoder ≠ nullptr := by simp [hidle]
  obtain ⟨hfresh, es, hev, hnb, -⟩ := runBody_events o { k with encoder := d.fresh + 1 } f
    ({ d with fresh := d.fresh + 1 }.record (.beginEncoding (d.fresh + 1)))
  simp only [runCommandBlock, hne, if_false]
  refine ⟨?_, ?_, es, ?_, hnb⟩
  · cases k
    simp_all
  · simp only [Driver.record] at hfresh ⊢
    rw [hfresh]
  · simp only [Driver.record] at hev ⊢
    rw [hev]

/-- A history of command blocks on an idle object leaves it idle; every
session it opened has a handle above the counter it started from and up to
the counter it ends with. -/
theorem runBlocks_idle (o : DriverSpec) (fs : List (List Call)) :
    ∀ (k : MetalKernelFunction) (d : Driver), k.encoder = nullptr →
      (runBlocks o fs k d).1 = k ∧
      (runBlocks o fs k d).2.fresh = d.fresh + fs.length ∧
      ∃ es, (runBlocks o fs k d).2.events = d.events ++ es ∧
        ∀ h : Nat, DriverEvent.beginEncoding h ∈ es → d.fresh < h ∧ h ≤ d.fresh + fs.length := by
  induction fs with
  | nil =>
    intro k d _
    exact ⟨rfl, rfl, [], by simp [runBlocks], by simp⟩
  | cons f fs ih =>
    intro k d hidle
    obtain ⟨hk, hfresh, es1, hev1, hnb1⟩ := runCommandBlock_idle o f k d hidle
    have hidle1 : (runCommandBlock o f k d).2.1.encoder = nullptr := by rw [hk]; exact hidle
    obtain ⟨hk2, hfresh2, es2, hev2, hb2⟩ :=
      ih (runCommandBlock o f k d).2.1 (runCommandBlock o f k d).2.2 hidle1
    simp only [runBlocks]
    refine ⟨by rw [hk2, hk], ?_, [.beginEncoding (d.fresh + 1)] ++ es1 ++
      [.endEncoding (d.fresh + 1)] ++ es2, ?_, ?_⟩
    · rw [hfresh2, hfresh, List.length_cons]
      omega
    · rw [hev2, hev1]
      simp
    · intro h hmem
      rcases List.mem_append.mp hmem with hm | hm
      · rcases List.mem_append.mp hm with hm | hm
        · rcases List.mem_append.mp hm with hm | hm
          · have heq := List.mem_singleton.mp hm
            injection heq with heq
            have heq1 : (h : Nat) = d.fresh + 1 := heq
            simp only [List.length_cons]
            omega
          · have := List.all_eq_true.mp hnb1 _ hm
            simp [DriverEvent.isBegin] at this
        · have heq := List.mem_singleton.mp hm
          cases heq
      · have := hb2 h hm
        rw [hfresh] at this
        simp only [List.length_cons]
        omega

/-- C8: the encoder handle is null on construction and after every history of
command blocks, whatever their bodies do; the next command block runs its body
with a non-null session handle that no earlier block had, and returns the
object idle again. -/
theorem idle_session_invariant (o : DriverSpec) (cps : Handle) (fs : List (List Call))
    (f : List Call) (d : Driver) :
    (MetalKernelFunction.ctor cps).encoder = nullptr ∧
    (runBlocks o fs (MetalKernelFunction.ctor cps) d).1.encoder = nullptr ∧
    (runBlocks o fs (MetalKernelFunction.ctor cps) d).2.fresh + 1 ≠ nullptr ∧
    (∃ es, (runBlocks o fs (MetalKernelFunction.ctor cps) d).2.events = d.events ++ es ∧
      ∀ h : Nat, DriverEvent.beginEncoding h ∈ es →
        h ≠ (runBlocks o fs (MetalKernelFunction.ctor cps) d).2.fresh + 1) ∧
    runCommandBlock o f (runBlocks o fs (MetalKernelFunction.ctor cps) d).1
        (runBlocks o fs (MetalKernelFunction.ctor cps) d).2
      = ((runBody o
            { cps := cps, encoder := (runBlocks o fs (MetalKernelFunction.ctor cps) d).2.fresh + 1 }
            f
            ({ (runBlocks o fs (MetalKernelFunction.ctor cps) d).2 with
                fresh := (runBlocks o fs (MetalKernelFunction.ctor cps) d).2.fresh + 1 }.record
              (.beginEncoding ((runBlocks o fs (MetalKernelFunction.ctor cps) d).2.fresh + 1)))).1,
         { cps := cps, encoder := nullptr },
         (runBody o
            { cps := cps, encoder := (runBlocks o fs (MetalKernelFunction.ctor cps) d).2.fresh + 1 }
            f
            ({ (runBlocks o fs (MetalKernelFunction.ctor cps) d).2 with
                fresh := (runBlocks o fs (MetalKernelFunction.ctor cps) d).2.fresh + 1 }.record
              (.beginEncoding
                ((runBlocks o fs (MetalKernelFunction.ctor cps) d).2.fresh + 1)))).2.record
           (.endEncoding ((runBlocks o fs (MetalKernelFunction.ctor cps) d).2.fresh + 1))) := by
  obtain ⟨hk, hfresh, es, hev, hb⟩ :=
    runBlocks_idle o fs (MetalKernelFunction.ctor cps) d rfl
  refine ⟨rfl, by rw [hk]; rfl, by simp [nullptr], ⟨es, hev, ?_⟩, ?_⟩
  · intro h hmem
    have := hb h hmem
    rw [hfresh]
    omega
  · rw [hk]
    simp [runCommandBlock, MetalKernelFunction.ctor]

open MetalShaderLibrary

/-- What a successful mapped call went through. -/
theorem map_ok {α β : Type} (g : α → β) (x : LibM α) (s s1 : LibState) (b : β)
    (h : LibM.map g x s = (.ok b, s1)) :
    ∃ a, x s = (.ok a, s1) ∧ g a = b := by
  unfold LibM.map at h
  split at h
  · rename_i a sa hx
    simp only [Prod.mk.injEq, Except.ok.injEq] at h
    exact ⟨a, by rw [hx, h.2], h.1⟩
  · simp at h

end mps
